import Mathlib

/-!
Verification of the `cli-utils` crate (date, math and string utilities).

The definitions below are a shallow embedding of the Rust sources in
`src/examples/cli-utils/src/`.  The date functions delegate to the `chrono`
crate (`NaiveDate::parse_from_str`, `NaiveDate::format`, date subtraction and
`Duration` addition).  A fragment of chrono's strftime language is embedded
with full parsing and formatting semantics: literals, whitespace, `%Y`, `%m`,
`%d`, `%e`, `%b`, `%h`, `%B`, `%a`, `%A`, `%%`, and the composite specifiers
`%F` and `%v`, which chrono itself expands into sequences of the former.
chrono supports further conversion specifiers (century, ordinal and week
numbers, time, timezone and datetime items, padding modifiers); these are
classified as `unmodelled` items: the embedding makes no claim about their
behaviour, and every theorem whose truth could depend on them carries a
hypothesis excluding formats that contain one.  Format-string shapes that
chrono's scanner certainly turns into `Item::Error` — a trailing `%`, or `%`
followed by a non-specifier character or a malformed precision/offset
sequence — are embedded as `invalidSpec`, which chrono rejects with
`BAD_FORMAT` when parsing and on which chrono's `Display` implementation
fails when formatting (so the `to_string` calls in the crate abort).
Machine integers are embedded as `Nat`/`Int`; `u64` multiplication that the
sources only reach without overflow is embedded with an explicit `% 2 ^ 64`
reduction (release semantics).  Unicode classification functions
(`char::is_alphanumeric`, `char::to_lowercase`, `char::is_whitespace`) are
embedded by their ASCII fragment; statements about parsing that are
sensitive to the difference restrict their inputs to ASCII.
-/

namespace CliUtils

/-- Error kinds of `chrono::format::ParseError`, as returned by
`NaiveDate::parse_from_str`. -/
inductive ParseError where
  | outOfRange
  | impossible
  | notEnough
  | invalid
  | tooShort
  | tooLong
  | badFormat
deriving DecidableEq

/-- Result of one of the crate's fallible calls: a returned value, a returned
`ParseError`, or an abort of the process (a Rust panic, e.g. from
`DelayedFormat::to_string` on an unsupported format, or from out-of-range
`NaiveDate + Duration`). -/
inductive Outcome (α : Type) where
  | ok (a : α)
  | parseError (e : ParseError)
  | panicked
deriving DecidableEq

/-- A parsed item of chrono's strftime format language.

The first ten constructors are the embedded fragment, whose parsing and
formatting semantics are modelled in full: literal and whitespace characters
and the specifiers `%Y` (`numYear`), `%m` (`numMonth`), `%d` (`numDay`),
`%e` (`numDaySpace`, the space-padded day, also written `%_d`),
`%b`/`%h` (`shortMonthName`), `%B` (`longMonthName`),
`%a` (`shortWeekdayName`) and `%A` (`weekdayName`).

`unmodelled` stands for a conversion specifier that chrono supports but
whose semantics this embedding does not model (century, ordinal and week
numbers, time, timezone and datetime items, padding modifiers, …).  The
embedding makes no claim about formats containing such an item: `parseItems`
and `itemChars` refuse them, and every theorem whose truth could depend on
them has a hypothesis excluding them.

`invalidSpec` is chrono's `Item::Error`, produced only for format shapes
that chrono certainly rejects (a trailing `%`, or `%` followed by a
non-specifier character or a malformed precision/offset sequence): chrono
answers `BAD_FORMAT` when parsing with such an item and its `Display`
implementation fails when formatting with one, so `to_string` panics. -/
inductive FmtItem where
  | lit (c : Char)
  | space (c : Char)
  | numYear
  | numMonth
  | numDay
  | numDaySpace
  | shortMonthName
  | longMonthName
  | shortWeekdayName
  | weekdayName
  | unmodelled
  | invalidSpec
deriving DecidableEq

/-- chrono's `StrftimeItems`: scan a format string into items.  A whitespace
character becomes a `space` item and any other plain character a literal.
The specifiers of the embedded fragment become its items; `%F` and `%v` are
expanded into the same item sequences chrono expands them to
(`%Y-%m-%d` and `%e-%b-%Y`).  Chrono-supported specifiers outside the
fragment — single letters such as `%C %y %j %U %W %G %g %V %w %u %t %n`, the
time/zone/datetime specifiers, `%+`, the precision forms `%.f %.3f %.6f
%.9f %3f %6f %9f`, the offset forms `%:z %::z %:::z %#z`, and a padding
modifier `-`/`0`/`_` applied to a following specifier letter — are
classified as `unmodelled`.  Where the classification of a sequence is not
certain, `unmodelled` is chosen as well (it only removes the format from
the theorems' scope; it never grounds a claim).  Only shapes that chrono's
scanner certainly maps to `Item::Error` become `invalidSpec`.

The recursion is made structural on a fuel argument so that the kernel can
evaluate it; every step consumes at least one character, so the fuel
supplied by `strftimeItems` is never exhausted. -/
def strftimeItemsAux : Nat → List Char → List FmtItem
  | 0, _ => []
  | fuel + 1, cs =>
    match cs with
    | [] => []
    | '%' :: rest =>
      match rest with
      | [] => [FmtItem.invalidSpec]
      | c :: rest' =>
        match c with
        | 'Y' => FmtItem.numYear :: strftimeItemsAux fuel rest'
        | 'm' => FmtItem.numMonth :: strftimeItemsAux fuel rest'
        | 'd' => FmtItem.numDay :: strftimeItemsAux fuel rest'
        | 'e' => FmtItem.numDaySpace :: strftimeItemsAux fuel rest'
        | 'b' => FmtItem.shortMonthName :: strftimeItemsAux fuel rest'
        | 'h' => FmtItem.shortMonthName :: strftimeItemsAux fuel rest'
        | 'B' => FmtItem.longMonthName :: strftimeItemsAux fuel rest'
        | 'a' => FmtItem.shortWeekdayName :: strftimeItemsAux fuel rest'
        | 'A' => FmtItem.weekdayName :: strftimeItemsAux fuel rest'
        | '%' => FmtItem.lit '%' :: strftimeItemsAux fuel rest'
        | 'F' => FmtItem.numYear :: FmtItem.lit '-' :: FmtItem.numMonth :: FmtItem.lit '-' ::
            FmtItem.numDay :: strftimeItemsAux fuel rest'
        | 'v' => FmtItem.numDaySpace :: FmtItem.lit '-' :: FmtItem.shortMonthName ::
            FmtItem.lit '-' :: FmtItem.numYear :: strftimeItemsAux fuel rest'
        | '-' | '0' | '_' =>
          match rest' with
          | [] => [FmtItem.invalidSpec]
          | _ :: rest'' => FmtItem.unmodelled :: strftimeItemsAux fuel rest''
        | '.' =>
          match rest' with
          | 'f' :: rest'' => FmtItem.unmodelled :: strftimeItemsAux fuel rest''
          | '3' :: 'f' :: rest'' => FmtItem.unmodelled :: strftimeItemsAux fuel rest''
          | '6' :: 'f' :: rest'' => FmtItem.unmodelled :: strftimeItemsAux fuel rest''
          | '9' :: 'f' :: rest'' => FmtItem.unmodelled :: strftimeItemsAux fuel rest''
          | _ => FmtItem.invalidSpec :: strftimeItemsAux fuel rest'
        | ':' =>
          match rest' with
          | 'z' :: rest'' => FmtItem.unmodelled :: strftimeItemsAux fuel rest''
          | ':' :: 'z' :: rest'' => FmtItem.unmodelled :: strftimeItemsAux fuel rest''
          | ':' :: ':' :: 'z' :: rest'' => FmtItem.unmodelled :: strftimeItemsAux fuel rest''
          | _ => FmtItem.invalidSpec :: strftimeItemsAux fuel rest'
        | '#' =>
          match rest' with
          | 'z' :: rest'' => FmtItem.unmodelled :: strftimeItemsAux fuel rest''
          | _ => FmtItem.invalidSpec :: strftimeItemsAux fuel rest'
        | '3' | '6' | '9' =>
          match rest' with
          | 'f' :: rest'' => FmtItem.unmodelled :: strftimeItemsAux fuel rest''
          | _ => FmtItem.invalidSpec :: strftimeItemsAux fuel rest'
        | '+' => FmtItem.unmodelled :: strftimeItemsAux fuel rest'
        | _ =>
          if c.isAlpha then FmtItem.unmodelled :: strftimeItemsAux fuel rest'
          else FmtItem.invalidSpec :: strftimeItemsAux fuel rest'
    | c :: rest =>
      (if c.isWhitespace then FmtItem.space c else FmtItem.lit c) :: strftimeItemsAux fuel rest

/-- chrono's `StrftimeItems` on a whole format string (see
`strftimeItemsAux`). -/
def strftimeItems (cs : List Char) : List FmtItem := strftimeItemsAux (cs.length + 1) cs

/-- The items of the embedded fragment: chrono both parses them and renders
them for a `NaiveDate`.  False exactly on `unmodelled` and `invalidSpec`. -/
def FmtItem.renders : FmtItem → Bool
  | .unmodelled => false
  | .invalidSpec => false
  | _ => true

/-- The items on which the embedding mirrors chrono's parser exactly: the
embedded fragment together with `invalidSpec` (where both sides answer
`BAD_FORMAT`).  False exactly on `unmodelled`. -/
def FmtItem.modelled : FmtItem → Bool
  | .unmodelled => false
  | _ => true

/-- Strings of ASCII characters only: on these the embedding's ASCII
character classification agrees with Rust's Unicode one. -/
def AsciiOnly (s : String) : Prop := ∀ c ∈ s.data, c.toNat < 128

instance (s : String) : Decidable (AsciiOnly s) := by
  unfold AsciiOnly; infer_instance

/-- A calendar date, the embedding of `chrono::NaiveDate` (proleptic
Gregorian year, month `1..=12`, day of month). -/
structure Date where
  year : Int
  month : Nat
  day : Nat
deriving DecidableEq

/-- `date_utils::is_leap_year`: `(year % 4 == 0 && year % 100 != 0) ||
(year % 400 == 0)`.  Rust's `%` on `i32` is the truncating remainder; it is
zero exactly when Lean's Euclidean `%` is, so the `== 0` tests coincide.
chrono validates February 29 with the same Gregorian predicate. -/
def is_leap_year (year : Int) : Bool :=
  (year % 4 == 0 && year % 100 != 0) || (year % 400 == 0)

/-- `1` in a leap year, `0` otherwise. -/
def leapAdj (leap : Bool) : Nat := if leap then 1 else 0

/-- Length of month `m` (`1..=12`) in the Gregorian calendar. -/
def monthLen (leap : Bool) (m : Nat) : Nat :=
  match m with
  | 1 => 31
  | 2 => 28 + leapAdj leap
  | 3 => 31
  | 4 => 30
  | 5 => 31
  | 6 => 30
  | 7 => 31
  | 8 => 31
  | 9 => 30
  | 10 => 31
  | 11 => 30
  | 12 => 31
  | _ => 0

/-- Days of the year strictly before month `m` (`1..=12`). -/
def daysBeforeMonth (leap : Bool) (m : Nat) : Nat :=
  match m with
  | 1 => 0
  | 2 => 31
  | 3 => 59 + leapAdj leap
  | 4 => 90 + leapAdj leap
  | 5 => 120 + leapAdj leap
  | 6 => 151 + leapAdj leap
  | 7 => 181 + leapAdj leap
  | 8 => 212 + leapAdj leap
  | 9 => 243 + leapAdj leap
  | 10 => 273 + leapAdj leap
  | 11 => 304 + leapAdj leap
  | 12 => 334 + leapAdj leap
  | _ => 0

/-- Number of days in year `y`. -/
def daysInYear (y : Int) : Int := if is_leap_year y then 366 else 365

/-- Days strictly before January 1 of year `y`, counted from the epoch
January 1 of year 1 (Rata Die).  Lean's `/` on `Int` is Euclidean division,
which for the positive divisors 4, 100 and 400 is floor division, as required
by the proleptic Gregorian calendar over all (also negative) years. -/
def daysBeforeYear (y : Int) : Int :=
  365 * (y - 1) + (y - 1) / 4 - (y - 1) / 100 + (y - 1) / 400

/-- The Rata Die day number of a date (January 1 of year 1 is day 1).
chrono's date subtraction and day addition are exactly arithmetic on this
day count. -/
def toOrdinal (d : Date) : Int :=
  daysBeforeYear d.year + (daysBeforeMonth (is_leap_year d.year) d.month : Int) + (d.day : Int)

/-- The dates representable as `chrono::NaiveDate`: a real calendar date
whose year lies in chrono's supported range. -/
def Date.Valid (d : Date) : Prop :=
  1 ≤ d.month ∧ d.month ≤ 12 ∧ 1 ≤ d.day ∧
    d.day ≤ monthLen (is_leap_year d.year) d.month ∧
    -262144 ≤ d.year ∧ d.year ≤ 262143

instance (d : Date) : Decidable d.Valid := by
  unfold Date.Valid; infer_instance

/-- Chronological (lexicographic) order on calendar dates. -/
def Date.Before (a b : Date) : Prop :=
  a.year < b.year ∨ (a.year = b.year ∧
    (a.month < b.month ∨ (a.month = b.month ∧ a.day < b.day)))

instance (a b : Date) : Decidable (Date.Before a b) := by
  unfold Date.Before; infer_instance

/-- Weekday of a date as an index, `0` = Sunday … `6` = Saturday.  Day 1 of
the Rata Die count (January 1 of year 1) is a Monday, so the index is the day
number modulo 7. -/
def weekdayIndex (d : Date) : Nat := ((toOrdinal d) % 7).toNat

/-- English weekday names as produced by chrono's `%A`. -/
def longWeekdayName (i : Nat) : List Char :=
  match i with
  | 0 => "Sunday".data
  | 1 => "Monday".data
  | 2 => "Tuesday".data
  | 3 => "Wednesday".data
  | 4 => "Thursday".data
  | 5 => "Friday".data
  | 6 => "Saturday".data
  | _ => []

/-- Month and day of month of day `doy` (`1`-based) of a year. -/
def monthday (leap : Bool) (doy : Nat) : Nat × Nat :=
  let l := leapAdj leap
  if doy ≤ 31 then (1, doy)
  else if doy ≤ 59 + l then (2, doy - 31)
  else if doy ≤ 90 + l then (3, doy - (59 + l))
  else if doy ≤ 120 + l then (4, doy - (90 + l))
  else if doy ≤ 151 + l then (5, doy - (120 + l))
  else if doy ≤ 181 + l then (6, doy - (151 + l))
  else if doy ≤ 212 + l then (7, doy - (181 + l))
  else if doy ≤ 243 + l then (8, doy - (212 + l))
  else if doy ≤ 273 + l then (9, doy - (243 + l))
  else if doy ≤ 304 + l then (10, doy - (273 + l))
  else if doy ≤ 334 + l then (11, doy - (304 + l))
  else (12, doy - (334 + l))

/-- Search upward from year `y` for the year containing ordinal `o`.  The
`fuel` argument makes the recursion structural (hence computable by the
kernel); callers pass enough fuel for the search to finish. -/
def findYearUp : Nat → Int → Int → Int
  | 0, _, y => y
  | fuel + 1, o, y => if o ≤ daysBeforeYear (y + 1) then y else findYearUp fuel o (y + 1)

/-- Search downward from year `y` for the year containing ordinal `o`. -/
def findYearDown : Nat → Int → Int → Int
  | 0, _, y => y
  | fuel + 1, o, y => if daysBeforeYear y < o then y else findYearDown fuel o (y - 1)

/-- The year containing Rata Die day `o`. -/
def findYear (o : Int) : Int :=
  if 0 < o then findYearUp o.toNat o 1 else findYearDown (1 - o).toNat o 0

/-- Inverse of `toOrdinal`: the date with Rata Die day number `o`, or `none`
when the date falls outside chrono's representable range (where chrono's
checked constructors return `None` and its `Add` implementation panics). -/
def fromOrdinal (o : Int) : Option Date :=
  let y := findYear o
  let md := monthday (is_leap_year y) (o - daysBeforeYear y).toNat
  if -262144 ≤ y ∧ y ≤ 262143 then some ⟨y, md.1, md.2⟩ else none

/-- The fields of `chrono::format::Parsed` that the embedded format fragment
can set. -/
structure Parsed where
  year : Option Int := none
  month : Option Nat := none
  day : Option Nat := none
  weekday : Option Nat := none
deriving DecidableEq

/-- `Parsed::set_year`: setting a field twice with conflicting values is the
`IMPOSSIBLE` parse error. -/
def Parsed.setYear (p : Parsed) (v : Int) : Except ParseError Parsed :=
  match p.year with
  | none => .ok { p with year := some v }
  | some w => if w = v then .ok p else .error .impossible

/-- `Parsed::set_month`. -/
def Parsed.setMonth (p : Parsed) (v : Nat) : Except ParseError Parsed :=
  match p.month with
  | none => .ok { p with month := some v }
  | some w => if w = v then .ok p else .error .impossible

/-- `Parsed::set_day`. -/
def Parsed.setDay (p : Parsed) (v : Nat) : Except ParseError Parsed :=
  match p.day with
  | none => .ok { p with day := some v }
  | some w => if w = v then .ok p else .error .impossible

/-- `Parsed::set_weekday`. -/
def Parsed.setWeekday (p : Parsed) (v : Nat) : Except ParseError Parsed :=
  match p.weekday with
  | none => .ok { p with weekday := some v }
  | some w => if w = v then .ok p else .error .impossible

/-- `Parsed::to_naive_date`: a year, month and day must all have been parsed
(`NOT_ENOUGH` otherwise); they must form a representable date
(`OUT_OF_RANGE` otherwise); and a parsed weekday must agree with the
weekday computed from the date (`IMPOSSIBLE` otherwise). -/
def Parsed.toNaiveDate (p : Parsed) : Except ParseError Date :=
  match p.year, p.month, p.day with
  | some y, some m, some d =>
    let date : Date := ⟨y, m, d⟩
    if date.Valid then
      match p.weekday with
      | some w => if w = weekdayIndex date then .ok date else .error .impossible
      | none => .ok date
    else .error .outOfRange
  | _, _, _ => .error .notEnough

/-- Consume up to `width` leading ASCII digits, accumulating their value
(chrono `scan::number`'s digit loop). -/
def scanDigits : Nat → List Char → Nat → Nat × List Char
  | 0, cs, acc => (acc, cs)
  | _ + 1, [], acc => (acc, [])
  | w + 1, c :: cs, acc =>
    if c.isDigit then scanDigits w cs (acc * 10 + (c.toNat - 48)) else (acc, c :: cs)

/-- chrono `scan::number` with minimum width 1: empty input is `TOO_SHORT`,
a leading non-digit is `INVALID`, and otherwise between 1 and `width` digits
are consumed. -/
def scanNumber (width : Nat) (cs : List Char) : Except ParseError (Nat × List Char) :=
  match cs with
  | [] => .error .tooShort
  | c :: _ => if c.isDigit then .ok (scanDigits width cs 0) else .error .invalid

/-- Drop `pat` from the front of `cs`, comparing ASCII case-insensitively. -/
def dropPrefixCI : List Char → List Char → Option (List Char)
  | [], cs => some cs
  | _ :: _, [] => none
  | p :: ps, c :: cs => if p.toLower = c.toLower then dropPrefixCI ps cs else none

/-- Weekday indices with their English names. -/
def weekdayTable : List (Nat × List Char) :=
  [(0, "Sunday".data), (1, "Monday".data), (2, "Tuesday".data), (3, "Wednesday".data),
   (4, "Thursday".data), (5, "Friday".data), (6, "Saturday".data)]

/-- Month numbers (`1..=12`) with their English names. -/
def monthTable : List (Nat × List Char) :=
  [(1, "January".data), (2, "February".data), (3, "March".data), (4, "April".data),
   (5, "May".data), (6, "June".data), (7, "July".data), (8, "August".data),
   (9, "September".data), (10, "October".data), (11, "November".data),
   (12, "December".data)]

/-- Try to strip a full name of the table from the input. -/
def scanNameLong : List (Nat × List Char) → List Char → Option (Nat × List Char)
  | [], _ => none
  | (w, name) :: rest, cs =>
    match dropPrefixCI name cs with
    | some cs' => some (w, cs')
    | none => scanNameLong rest cs

/-- Try to strip a three-letter abbreviation of a name of the table from the
input. -/
def scanNameShort : List (Nat × List Char) → List Char → Option (Nat × List Char)
  | [], _ => none
  | (w, name) :: rest, cs =>
    match dropPrefixCI (name.take 3) cs with
    | some cs' => some (w, cs')
    | none => scanNameShort rest cs

/-- chrono `scan::short_or_long_weekday`: a weekday name, long or
abbreviated, matched case-insensitively. -/
def scanWeekday (cs : List Char) : Except ParseError (Nat × List Char) :=
  match scanNameLong weekdayTable cs with
  | some r => .ok r
  | none =>
    match scanNameShort weekdayTable cs with
    | some r => .ok r
    | none => if cs.length < 3 then .error .tooShort else .error .invalid

/-- chrono `scan::short_or_long_month0` (shifted to `1`-based months): a
month name, long or abbreviated, matched case-insensitively. -/
def scanMonthName (cs : List Char) : Except ParseError (Nat × List Char) :=
  match scanNameLong monthTable cs with
  | some r => .ok r
  | none =>
    match scanNameShort monthTable cs with
    | some r => .ok r
    | none => if cs.length < 3 then .error .tooShort else .error .invalid

/-- chrono `format::parse`: interpret the items one by one against the
input.  Numeric items skip leading whitespace; `%Y` accepts an explicit
`+`/`-` sign (consuming arbitrarily many digits, `OUT_OF_RANGE` past
`i64::MAX` as in chrono's checked accumulation) and otherwise at most four
digits; `%m`, `%d` and `%e` accept at most two digits; month and weekday
names are matched by the long/short scanners; a literal must match exactly;
a whitespace item skips any run of whitespace; an `invalidSpec` item is the
`BAD_FORMAT` error, as in chrono.  An `unmodelled` item is also answered
with `BAD_FORMAT`, but there this is a modelling boundary, not chrono's
behaviour (chrono parses those specifiers): no theorem instance reaches
this case.  Returns the populated `Parsed` and the unconsumed input. -/
def parseItems : List FmtItem → List Char → Parsed → Except ParseError (Parsed × List Char)
  | [], cs, p => .ok (p, cs)
  | FmtItem.lit c :: rest, cs, p =>
    match cs with
    | [] => .error .tooShort
    | c' :: cs' => if c' = c then parseItems rest cs' p else .error .invalid
  | FmtItem.space _ :: rest, cs, p => parseItems rest (cs.dropWhile Char.isWhitespace) p
  | FmtItem.numYear :: rest, cs, p =>
    let cs1 := cs.dropWhile Char.isWhitespace
    match cs1 with
    | '-' :: cs2 =>
      match scanNumber cs2.length cs2 with
      | .error e => .error e
      | .ok (v, cs3) =>
        if v > 9223372036854775807 then .error .outOfRange
        else
          match p.setYear (-(v : Int)) with
          | .error e => .error e
          | .ok p' => parseItems rest cs3 p'
    | '+' :: cs2 =>
      match scanNumber cs2.length cs2 with
      | .error e => .error e
      | .ok (v, cs3) =>
        if v > 9223372036854775807 then .error .outOfRange
        else
          match p.setYear (v : Int) with
          | .error e => .error e
          | .ok p' => parseItems rest cs3 p'
    | _ =>
      match scanNumber 4 cs1 with
      | .error e => .error e
      | .ok (v, cs3) =>
        match p.setYear (v : Int) with
        | .error e => .error e
        | .ok p' => parseItems rest cs3 p'
  | FmtItem.numMonth :: rest, cs, p =>
    match scanNumber 2 (cs.dropWhile Char.isWhitespace) with
    | .error e => .error e
    | .ok (v, cs3) =>
      match p.setMonth v with
      | .error e => .error e
      | .ok p' => parseItems rest cs3 p'
  | FmtItem.numDay :: rest, cs, p =>
    match scanNumber 2 (cs.dropWhile Char.isWhitespace) with
    | .error e => .error e
    | .ok (v, cs3) =>
      match p.setDay v with
      | .error e => .error e
      | .ok p' => parseItems rest cs3 p'
  | FmtItem.numDaySpace :: rest, cs, p =>
    match scanNumber 2 (cs.dropWhile Char.isWhitespace) with
    | .error e => .error e
    | .ok (v, cs3) =>
      match p.setDay v with
      | .error e => .error e
      | .ok p' => parseItems rest cs3 p'
  | FmtItem.shortMonthName :: rest, cs, p =>
    match scanMonthName cs with
    | .error e => .error e
    | .ok (v, cs3) =>
      match p.setMonth v with
      | .error e => .error e
      | .ok p' => parseItems rest cs3 p'
  | FmtItem.longMonthName :: rest, cs, p =>
    match scanMonthName cs with
    | .error e => .error e
    | .ok (v, cs3) =>
      match p.setMonth v with
      | .error e => .error e
      | .ok p' => parseItems rest cs3 p'
  | FmtItem.shortWeekdayName :: rest, cs, p =>
    match scanWeekday cs with
    | .error e => .error e
    | .ok (w, cs3) =>
      match p.setWeekday w with
      | .error e => .error e
      | .ok p' => parseItems rest cs3 p'
  | FmtItem.weekdayName :: rest, cs, p =>
    match scanWeekday cs with
    | .error e => .error e
    | .ok (w, cs3) =>
      match p.setWeekday w with
      | .error e => .error e
      | .ok p' => parseItems rest cs3 p'
  | FmtItem.unmodelled :: _, _, _ => .error .badFormat
  | FmtItem.invalidSpec :: _, _, _ => .error .badFormat

/-- `chrono::NaiveDate::parse_from_str`: scan the format string into items,
run them against the input, require the whole input to be consumed
(`TOO_LONG` otherwise), and resolve the parsed fields into a date. -/
def parse_from_str (s fmt : String) : Except ParseError Date :=
  match parseItems (strftimeItems fmt.data) s.data {} with
  | .error e => .error e
  | .ok (p, rest) => if rest.isEmpty then p.toNaiveDate else .error .tooLong

/-- Decimal digits of `n`, most significant first (fuel-structural so the
kernel can evaluate it; `natDigits` supplies sufficient fuel). -/
def natDigitsAux : Nat → Nat → List Char
  | 0, _ => []
  | fuel + 1, n =>
    if n < 10 then [Nat.digitChar n] else natDigitsAux fuel (n / 10) ++ [Nat.digitChar (n % 10)]

/-- Decimal digits of `n`, most significant first. -/
def natDigits (n : Nat) : List Char := natDigitsAux (n + 1) n

/-- Left-pad a digit string with zeros to width `w`. -/
def padZeros (w : Nat) (ds : List Char) : List Char :=
  List.replicate (w - ds.length) '0' ++ ds

/-- Left-pad a digit string with spaces to width `w` (chrono `Pad::Space`,
as used by `%e`). -/
def padSpaces (w : Nat) (ds : List Char) : List Char :=
  List.replicate (w - ds.length) ' ' ++ ds

/-- English month names as produced by chrono's `%B` (months `1..=12`). -/
def longMonthChars (m : Nat) : List Char :=
  match m with
  | 1 => "January".data
  | 2 => "February".data
  | 3 => "March".data
  | 4 => "April".data
  | 5 => "May".data
  | 6 => "June".data
  | 7 => "July".data
  | 8 => "August".data
  | 9 => "September".data
  | 10 => "October".data
  | 11 => "November".data
  | 12 => "December".data
  | _ => []

/-- chrono's rendering of `%Y`: the year zero-padded to four digits, with an
explicit sign for years outside `0..=9999`. -/
def yearChars (y : Int) : List Char :=
  (if y < 0 then ['-'] else if 10000 ≤ y then ['+'] else []) ++ padZeros 4 (natDigits y.natAbs)

/-- Characters produced by formatting one item of a date.  `none` for an
`invalidSpec` item (on which chrono's `Display` implementation fails, so
the `to_string` calls in the crate panic) and for an `unmodelled` item —
for the latter this is a modelling boundary, not chrono's behaviour (some
unmodelled specifiers render a date, others fail without time or zone
data): no theorem instance reaches that case. -/
def itemChars (it : FmtItem) (d : Date) : Option (List Char) :=
  match it with
  | .lit c => some [c]
  | .space c => some [c]
  | .numYear => some (yearChars d.year)
  | .numMonth => some (padZeros 2 (natDigits d.month))
  | .numDay => some (padZeros 2 (natDigits d.day))
  | .numDaySpace => some (padSpaces 2 (natDigits d.day))
  | .shortMonthName => some ((longMonthChars d.month).take 3)
  | .longMonthName => some (longMonthChars d.month)
  | .shortWeekdayName => some ((longWeekdayName (weekdayIndex d)).take 3)
  | .weekdayName => some (longWeekdayName (weekdayIndex d))
  | .unmodelled => none
  | .invalidSpec => none

/-- chrono `NaiveDate::format(...)` followed by `Display`: concatenation of
the items' characters, failing if any item is unsupported. -/
def formatChars : List FmtItem → Date → Option (List Char)
  | [], _ => some []
  | it :: rest, d =>
    match itemChars it d, formatChars rest d with
    | some a, some b => some (a ++ b)
    | _, _ => none

/-- The canonical `%Y-%m-%d` rendering of a date (what `format("%Y-%m-%d")`
produces): zero-padded four-digit year (signed outside `0..=9999`),
two-digit month and day. -/
def canonical_ymd (d : Date) : String :=
  ⟨yearChars d.year ++ '-' :: (padZeros 2 (natDigits d.month) ++ '-' :: padZeros 2 (natDigits d.day))⟩

/-- `date_utils::date_difference_days`: parse both inputs with `%Y-%m-%d`
and return the signed day difference `(d1 - d2).num_days()`. -/
def date_difference_days (date1 date2 : String) : Except ParseError Int :=
  match parse_from_str date1 "%Y-%m-%d" with
  | .error e => .error e
  | .ok d1 =>
    match parse_from_str date2 "%Y-%m-%d" with
    | .error e => .error e
    | .ok d2 => .ok (toOrdinal d1 - toOrdinal d2)

/-- `date_utils::validate_date_format`:
`NaiveDate::parse_from_str(date_str, format).is_ok()`. -/
def validate_date_format (date_str format : String) : Bool :=
  match parse_from_str date_str format with
  | .ok _ => true
  | .error _ => false

/-- `date_utils::format_date`: parse with the input format (propagating its
`ParseError`), then format with the output format; `to_string` on the
delayed format panics when the output format has an unsupported item. -/
def format_date (date_str input_format output_format : String) : Outcome String :=
  match parse_from_str date_str input_format with
  | .error e => .parseError e
  | .ok d =>
    match formatChars (strftimeItems output_format.data) d with
    | some cs => .ok ⟨cs⟩
    | none => .panicked

/-- `date_utils::add_days`: parse with `%Y-%m-%d`, add `days` days
(`date + Duration::days(days)`, which panics when the result is not
representable), and format back with `%Y-%m-%d`. -/
def add_days (date_str : String) (days : Int) : Outcome String :=
  match parse_from_str date_str "%Y-%m-%d" with
  | .error e => .parseError e
  | .ok d =>
    match fromOrdinal (toOrdinal d + days) with
    | some d2 =>
      match formatChars (strftimeItems "%Y-%m-%d".data) d2 with
      | some cs => .ok ⟨cs⟩
      | none => .panicked
    | none => .panicked

/-- `date_utils::day_of_week`: parse with `%Y-%m-%d` and format with `%A`. -/
def day_of_week (date_str : String) : Outcome String :=
  match parse_from_str date_str "%Y-%m-%d" with
  | .error e => .parseError e
  | .ok d =>
    match formatChars (strftimeItems "%A".data) d with
    | some cs => .ok ⟨cs⟩
    | none => .panicked

/-- `string_utils::reverse_string`: the characters in reverse order. -/
def reverse_string (s : String) : String := ⟨s.data.reverse⟩

/-- Rust `char::is_alphanumeric`, embedded on its ASCII fragment (ASCII
letters and digits). -/
def rust_is_alphanumeric (c : Char) : Bool := c.isAlphanum

/-- Rust `char::to_lowercase().next().unwrap()`, embedded on its ASCII
fragment. -/
def rust_to_lowercase (c : Char) : Char := c.toLower

/-- `string_utils::is_palindrome`: keep the alphanumeric characters,
lowercase them, and compare the result with its reverse. -/
def is_palindrome (s : String) : Bool :=
  let normalized := (s.data.filter rust_is_alphanumeric).map rust_to_lowercase
  normalized == normalized.reverse

/-- The recursive arm of `math_utils::factorial`, with `u64` multiplication
embedded with its `% 2 ^ 64` reduction (release semantics; the guarded
inputs `n ≤ 20` never reach the reduction). -/
def factAux : Nat → Nat
  | 0 => 1
  | 1 => 1
  | n + 2 => ((n + 2) * factAux (n + 1)) % 2 ^ 64

/-- `math_utils::factorial`: panics (embedded as `none`) for `n > 20`,
otherwise the recursive product.  The recursive calls re-check the guard
only on arguments below 20, where it never fires, so guarding once is
faithful. -/
def factorial (n : Nat) : Option Nat :=
  if n > 20 then none else some (factAux n)

/-- `math_utils::gcd`: Euclid's loop `(a, b) -> (b, a % b)`. -/
def gcd (a b : Nat) : Nat :=
  if _h : b = 0 then a else gcd b (a % b)
termination_by b
decreasing_by exact Nat.mod_lt _ (Nat.pos_of_ne_zero _h)

/-- `math_utils::lcm`: `0` when either input is, else `a * b / gcd a b` with
the `u64` product reduced modulo `2 ^ 64` (release semantics; this function
is total — it never aborts). -/
def lcm (a b : Nat) : Nat :=
  if a = 0 || b = 0 then 0 else ((a * b) % 2 ^ 64) / gcd a b

/-- `math_utils::is_prime`: handle `n < 2`, `n = 2` and even `n`, then trial
division by the odd candidates `3, 5, …` up to `√n`.  The Rust source
computes the bound as `(n as f64).sqrt() as u64`; with IEEE round-to-nearest
conversion and correctly rounded square root this value never falls below
`Nat.sqrt n` (and any overshoot only adds candidates `i` with
`Nat.sqrt n < i < n`, which cannot divide a number having no divisor up to
its square root), so the bound is embedded as `Nat.sqrt n`. -/
def is_prime (n : Nat) : Bool :=
  if n < 2 then false
  else if n = 2 then true
  else if n % 2 == 0 then false
  else
    let b := Nat.sqrt n
    let k := if b < 3 then 0 else (b - 3) / 2 + 1
    (List.range' 3 k 2).all fun i => n % i != 0

deriving instance DecidableEq for Except

/-! ### Calendar arithmetic lemmas -/

lemma is_leap_year_iff (y : Int) :
    is_leap_year y = true ↔ ((4:Int) ∣ y ∧ ¬(100:Int) ∣ y) ∨ (400:Int) ∣ y := by
  simp only [is_leap_year, Bool.or_eq_true, Bool.and_eq_true, beq_iff_eq, bne_iff_ne, ne_eq]
  omega

lemma daysInYear_eq (y : Int) : daysInYear y = 365 + (leapAdj (is_leap_year y) : Int) := by
  unfold daysInYear leapAdj
  cases is_leap_year y <;> simp

lemma daysBeforeYear_succ (y : Int) :
    daysBeforeYear (y + 1) = daysBeforeYear y + daysInYear y := by
  have h := is_leap_year_iff y
  unfold daysBeforeYear daysInYear
  rw [show y + 1 - 1 = y from by ring]
  split
  · next hc =>
    rw [h] at hc
    omega
  · next hc =>
    have hn : ¬(((4:Int) ∣ y ∧ ¬(100:Int) ∣ y) ∨ (400:Int) ∣ y) := fun hx => hc (h.mpr hx)
    omega

lemma daysInYear_ge (y : Int) : 365 ≤ daysInYear y := by
  unfold daysInYear
  split <;> omega

lemma daysBeforeYear_strict (y y' : Int) (h : y < y') :
    daysBeforeYear y + 365 ≤ daysBeforeYear y' := by
  unfold daysBeforeYear
  omega

lemma daysBeforeYear_le (y y' : Int) (h : y ≤ y') : daysBeforeYear y ≤ daysBeforeYear y' := by
  unfold daysBeforeYear
  omega

lemma monthLen_le_31 : ∀ (leap : Bool) (m : Nat), m < 13 → monthLen leap m ≤ 31 := by
  intro leap
  cases leap <;> decide

lemma daysBeforeMonth_bounds : ∀ (leap : Bool), ∀ m < 13, ∀ d < 32,
    (1 ≤ m ∧ 1 ≤ d ∧ d ≤ monthLen leap m) →
    1 ≤ daysBeforeMonth leap m + d ∧ daysBeforeMonth leap m + d ≤ 365 + leapAdj leap := by
  intro leap
  cases leap <;> decide

lemma monthday_inv : ∀ (leap : Bool), ∀ m < 13, ∀ d < 32,
    (1 ≤ m ∧ 1 ≤ d ∧ d ≤ monthLen leap m) →
    monthday leap (daysBeforeMonth leap m + d) = (m, d) := by
  intro leap
  cases leap <;> decide

lemma daysBeforeMonth_lex : ∀ (leap : Bool), ∀ m < 13, ∀ m' < 13, ∀ d < 32,
    (1 ≤ m ∧ m < m' ∧ 1 ≤ d ∧ d ≤ monthLen leap m) →
    daysBeforeMonth leap m + d < daysBeforeMonth leap m' + 1 := by
  intro leap
  cases leap <;> decide

lemma toOrdinal_bounds (d : Date) (h : d.Valid) :
    daysBeforeYear d.year < toOrdinal d ∧ toOrdinal d ≤ daysBeforeYear (d.year + 1) := by
  obtain ⟨h1, h2, h3, h4, -, -⟩ := h
  have hlen := monthLen_le_31 (is_leap_year d.year) d.month (by omega)
  have hb := daysBeforeMonth_bounds (is_leap_year d.year) d.month (by omega) d.day
    (by omega) ⟨h1, h3, h4⟩
  have hsucc := daysBeforeYear_succ d.year
  have hdiy := daysInYear_eq d.year
  unfold toOrdinal
  omega

lemma toOrdinal_lt_of_before (a b : Date) (ha : a.Valid) (hb : b.Valid)
    (h : Date.Before a b) : toOrdinal a < toOrdinal b := by
  rcases h with hy | ⟨hy, hm | ⟨hm, hd⟩⟩
  · have h1 := (toOrdinal_bounds a ha).2
    have h2 := (toOrdinal_bounds b hb).1
    have h3 := daysBeforeYear_le (a.year + 1) b.year (by omega)
    omega
  · obtain ⟨ha1, ha2, ha3, ha4, -, -⟩ := ha
    obtain ⟨hb1, hb2, hb3, hb4, -, -⟩ := hb
    have hlen := monthLen_le_31 (is_leap_year a.year) a.month (by omega)
    have lex := daysBeforeMonth_lex (is_leap_year a.year) a.month (by omega) b.month
      (by omega) a.day (by omega) ⟨ha1, hm, ha3, ha4⟩
    unfold toOrdinal
    rw [hy] at lex ⊢
    omega
  · unfold toOrdinal
    rw [hy, hm]
    omega

lemma before_trichotomy (a b : Date) : Date.Before a b ∨ a = b ∨ Date.Before b a := by
  obtain ⟨ya, ma, da⟩ := a
  obtain ⟨yb, mb, db⟩ := b
  simp only [Date.Before, Date.mk.injEq]
  omega

lemma toOrdinal_lt_iff (a b : Date) (ha : a.Valid) (hb : b.Valid) :
    toOrdinal a < toOrdinal b ↔ Date.Before a b := by
  constructor
  · intro h
    rcases before_trichotomy a b with hh | hh | hh
    · exact hh
    · subst hh
      exact absurd h (lt_irrefl _)
    · exact absurd (toOrdinal_lt_of_before b a hb ha hh) (by omega)
  · exact toOrdinal_lt_of_before a b ha hb

lemma findYearUp_spec : ∀ (fuel : Nat) (o y : Int), daysBeforeYear y < o →
    (o - daysBeforeYear y).toNat ≤ fuel →
    daysBeforeYear (findYearUp fuel o y) < o ∧
      o ≤ daysBeforeYear (findYearUp fuel o y + 1) := by
  intro fuel
  induction fuel with
  | zero =>
    intro o y h1 h2
    exact absurd h1 (by omega)
  | succ f ih =>
    intro o y h1 h2
    simp only [findYearUp]
    split
    · next hstop => exact ⟨h1, hstop⟩
    · next hgo =>
      apply ih
      · omega
      · have hstep := daysBeforeYear_succ y
        have hge := daysInYear_ge y
        omega

lemma findYearDown_spec : ∀ (fuel : Nat) (o y : Int), o ≤ daysBeforeYear (y + 1) →
    (daysBeforeYear y - o + 1).toNat ≤ fuel →
    daysBeforeYear (findYearDown fuel o y) < o ∧
      o ≤ daysBeforeYear (findYearDown fuel o y + 1) := by
  intro fuel
  induction fuel with
  | zero =>
    intro o y h1 h2
    simp only [findYearDown]
    exact ⟨by omega, h1⟩
  | succ f ih =>
    intro o y h1 h2
    simp only [findYearDown]
    split
    · next hstop => exact ⟨hstop, h1⟩
    · next hgo =>
      have hstep := daysBeforeYear_succ (y - 1)
      have hge := daysInYear_ge (y - 1)
      have hy : y - 1 + 1 = y := by omega
      rw [hy] at hstep
      apply ih
      · rw [hy]
        omega
      · omega

lemma daysBeforeYear_one : daysBeforeYear 1 = 0 := by decide

lemma daysBeforeYear_zero : daysBeforeYear 0 = -366 := by decide

lemma findYear_spec (o : Int) :
    daysBeforeYear (findYear o) < o ∧ o ≤ daysBeforeYear (findYear o + 1) := by
  unfold findYear
  split
  · next h =>
    apply findYearUp_spec
    · rw [daysBeforeYear_one]
      omega
    · rw [daysBeforeYear_one]
      omega
  · next h =>
    apply findYearDown_spec
    · rw [show (0:Int) + 1 = 1 from rfl, daysBeforeYear_one]
      omega
    · rw [daysBeforeYear_zero]
      omega

lemma findYear_eq_of_valid (d : Date) (h : d.Valid) : findYear (toOrdinal d) = d.year := by
  have hs := findYear_spec (toOrdinal d)
  have hb := toOrdinal_bounds d h
  by_contra hne
  rcases lt_or_gt_of_ne hne with hlt | hgt
  · have := daysBeforeYear_le (findYear (toOrdinal d) + 1) d.year (by omega)
    omega
  · have := daysBeforeYear_le (d.year + 1) (findYear (toOrdinal d)) (by omega)
    omega

lemma fromOrdinal_toOrdinal (d : Date) (h : d.Valid) : fromOrdinal (toOrdinal d) = some d := by
  have hfy := findYear_eq_of_valid d h
  obtain ⟨h1, h2, h3, h4, h5, h6⟩ := h
  have hlen := monthLen_le_31 (is_leap_year d.year) d.month (by omega)
  have hdoy : (toOrdinal d - daysBeforeYear d.year).toNat =
      daysBeforeMonth (is_leap_year d.year) d.month + d.day := by
    unfold toOrdinal
    omega
  simp only [fromOrdinal, hfy, hdoy,
    monthday_inv (is_leap_year d.year) d.month (by omega) d.day (by omega) ⟨h1, h3, h4⟩]
  rw [if_pos ⟨h5, h6⟩]

/-! ### Parsing and formatting lemmas -/

lemma toNaiveDate_valid (p : Parsed) (d : Date) (h : p.toNaiveDate = .ok d) : d.Valid := by
  unfold Parsed.toNaiveDate at h
  rcases p with ⟨py, pm, pd, pw⟩
  rcases py with - | y
  · simp at h
  rcases pm with - | m
  · simp at h
  rcases pd with - | dd
  · simp at h
  simp only at h
  split at h
  · next hv =>
    rcases pw with - | w
    · simp only at h
      injection h with h
      subst h
      exact hv
    · simp only at h
      split at h
      · injection h with h
        subst h
        exact hv
      · exact absurd h (by simp)
  · exact absurd h (by simp)

lemma parse_from_str_valid (s fmt : String) (d : Date)
    (h : parse_from_str s fmt = .ok d) : d.Valid := by
  unfold parse_from_str at h
  rcases hp : parseItems (strftimeItems fmt.data) s.data {} with e | pr <;> rw [hp] at h
  · simp at h
  · obtain ⟨p, rest⟩ := pr
    dsimp only at h
    split at h
    · exact toNaiveDate_valid p d h
    · simp at h

lemma formatChars_renders (items : List FmtItem) (d : Date)
    (h : ∀ it ∈ items, it.renders = true) : ∃ cs, formatChars items d = some cs := by
  induction items with
  | nil => exact ⟨[], rfl⟩
  | cons it rest ih =>
    obtain ⟨cs, hcs⟩ := ih fun x hx => h x (List.mem_cons_of_mem _ hx)
    have hit : ∃ a, itemChars it d = some a := by
      have hr := h it (List.mem_cons_self _ _)
      cases it <;> simp_all [itemChars, FmtItem.renders]
    obtain ⟨a, ha⟩ := hit
    exact ⟨a ++ cs, by simp [formatChars, ha, hcs]⟩

lemma formatChars_none (items : List FmtItem) (d : Date)
    (h : FmtItem.invalidSpec ∈ items) : formatChars items d = none := by
  induction items with
  | nil => simp at h
  | cons it rest ih =>
    rw [List.mem_cons] at h
    by_cases hit : it = FmtItem.invalidSpec
    · subst hit
      simp [formatChars, itemChars]
    · have hr : FmtItem.invalidSpec ∈ rest := by
        rcases h with h | h
        · exact absurd h.symm hit
        · exact h
      cases hic : itemChars it d <;> simp [formatChars, hic, ih hr]

lemma formatChars_ymd (d : Date) :
    formatChars (strftimeItems "%Y-%m-%d".data) d = some (canonical_ymd d).data := by
  have hi : strftimeItems "%Y-%m-%d".data =
      [FmtItem.numYear, FmtItem.lit '-', FmtItem.numMonth, FmtItem.lit '-', FmtItem.numDay] := rfl
  rw [hi]
  simp [formatChars, itemChars, canonical_ymd]

lemma formatChars_ymd_list (d : Date) :
    formatChars (strftimeItems ['%', 'Y', '-', '%', 'm', '-', '%', 'd']) d =
      some (canonical_ymd d).data :=
  formatChars_ymd d

lemma formatChars_weekday (d : Date) :
    formatChars (strftimeItems "%A".data) d = some (longWeekdayName (weekdayIndex d)) := by
  have hi : strftimeItems "%A".data = [FmtItem.weekdayName] := rfl
  rw [hi]
  simp [formatChars, itemChars]

lemma date_difference_days_inv (a b : String) (x : Int)
    (h : date_difference_days a b = .ok x) :
    ∃ da db, parse_from_str a "%Y-%m-%d" = .ok da ∧ parse_from_str b "%Y-%m-%d" = .ok db ∧
      x = toOrdinal da - toOrdinal db := by
  unfold date_difference_days at h
  rcases hpa : parse_from_str a "%Y-%m-%d" with e | da <;> rw [hpa] at h
  · simp at h
  · rcases hpb : parse_from_str b "%Y-%m-%d" with e | db <;> rw [hpb] at h
    · simp at h
    · refine ⟨da, db, rfl, rfl, ?_⟩
      injection h with h
      omega

/-! ### Claim theorems -/

/-- C6: `is_leap_year y` is true exactly when `y` is divisible by 4 and
either not divisible by 100 or divisible by 400, and the documented boundary
years evaluate as 2024 → true, 2023 → false, 2000 → true, 1900 → false. -/
theorem is_leap_year_gregorian_rule :
    (∀ y : Int, is_leap_year y = true ↔ (4:Int) ∣ y ∧ (¬(100:Int) ∣ y ∨ (400:Int) ∣ y)) ∧
    is_leap_year 2024 = true ∧ is_leap_year 2023 = false ∧
    is_leap_year 2000 = true ∧ is_leap_year 1900 = false := by
  refine ⟨fun y => ?_, by decide, by decide, by decide, by decide⟩
  rw [is_leap_year_iff y]
  omega

/-- C7: for `n ≤ 20`, `factorial n` returns the exact mathematical factorial
(no wrap-around ever happens below the guard), and for `n > 20` it panics
(modelled as `none`); the guard is the only abrupt-termination condition of
the module — the other functions of the embedding (`gcd`, `lcm`,
`is_prime`) are total. -/
theorem factorial_exact_iff_le_20 : ∀ n : Nat,
    (n ≤ 20 → factorial n = some (Nat.factorial n)) ∧ (20 < n → factorial n = none) := by
  intro n
  constructor
  · intro h
    have key : ∀ m, m < 21 → factAux m = Nat.factorial m := by decide
    have h20 : ¬ n > 20 := by omega
    unfold factorial
    rw [if_neg h20, key n (by omega)]
  · intro h
    unfold factorial
    rw [if_pos (by omega)]

/-- Witness for C7: `factorial 5` is exactly `5!` and `factorial 25`
panics. -/
theorem factorial_exact_iff_le_20_witness :
    factorial 5 = some (Nat.factorial 5) ∧ factorial 25 = none :=
  ⟨(factorial_exact_iff_le_20 5).1 (by decide), (factorial_exact_iff_le_20 25).2 (by decide)⟩

/-- C9: `reverse_string` is an involution and preserves the number of
characters. -/
theorem reverse_string_involutive : ∀ s : String,
    reverse_string (reverse_string s) = s ∧ (reverse_string s).length = s.length := by
  intro s
  obtain ⟨data⟩ := s
  constructor
  · simp [reverse_string]
  · simp [reverse_string, String.length]

/-- C10: `is_palindrome` is true on the empty string and on every string
none of whose characters is alphanumeric, because the normalization pass
keeps only alphanumeric characters and the empty sequence equals its own
reverse. -/
theorem is_palindrome_no_alphanumeric :
    (∀ s : String, (∀ c ∈ s.data, rust_is_alphanumeric c = false) → is_palindrome s = true) ∧
    is_palindrome "" = true := by
  constructor
  · intro s h
    have hfil : s.data.filter rust_is_alphanumeric = [] := by
      rw [List.filter_eq_nil_iff]
      intro a ha
      simp [h a ha]
    simp [is_palindrome, hfil]
  · decide

/-- Witness for C10: a punctuation-and-whitespace string is accepted as a
palindrome. -/
theorem is_palindrome_no_alphanumeric_witness : is_palindrome "?! ,." = true :=
  is_palindrome_no_alphanumeric.1 "?! ,." (by decide)

/-- C4: `validate_date_format` answers true exactly when
`parse_from_str` succeeds (it is total, so it never raises), and parsing
the string `"invalid-date"` against `%Y-%m-%d` returns the `INVALID`
parse error value — no crash. -/
theorem validate_date_format_iff_parse_ok :
    (∀ s f : String, validate_date_format s f = true ↔ ∃ d, parse_from_str s f = .ok d) ∧
    parse_from_str "invalid-date" "%Y-%m-%d" = .error .invalid ∧
    validate_date_format "invalid-date" "%Y-%m-%d" = false := by
  refine ⟨fun s f => ?_, by decide, by decide⟩
  unfold validate_date_format
  rcases hp : parse_from_str s f with e | d <;> simp

/-- C2: whenever `date_difference_days a b` returns a multiple of 7, the two
dates fall on the same weekday, so `day_of_week` answers the same name; in
particular both `"2023-12-25"` and `"2024-01-01"` are a `"Monday"`. -/
theorem day_of_week_consistent_with_difference :
    (∀ (a b : String) (k : Int), date_difference_days a b = .ok k → (7:Int) ∣ k →
      day_of_week a = day_of_week b) ∧
    day_of_week "2023-12-25" = .ok "Monday" ∧
    day_of_week "2024-01-01" = .ok "Monday" := by
  refine ⟨?_, by decide, by decide⟩
  intro a b k h hdvd
  obtain ⟨da, db, hpa, hpb, hk⟩ := date_difference_days_inv a b k h
  have hw : weekdayIndex da = weekdayIndex db := by
    unfold weekdayIndex
    have h7 : toOrdinal da % 7 = toOrdinal db % 7 := by omega
    rw [h7]
  have hA : strftimeItems ['%', 'A'] = [FmtItem.weekdayName] := rfl
  simp only [day_of_week, hpa, hpb, hA, formatChars, itemChars, hw]

/-- Witness for C2: the two documented Mondays differ by exactly one
week. -/
theorem day_of_week_consistent_with_difference_witness :
    day_of_week "2023-12-25" = day_of_week "2024-01-01" :=
  day_of_week_consistent_with_difference.1 "2023-12-25" "2024-01-01" (-7)
    (by decide) (by decide)

/-- C5: `date_difference_days` is zero on equal (parsing) inputs,
antisymmetric under swapping its arguments, and positive exactly when the
first date is chronologically after the second. -/
theorem date_difference_days_algebra :
    (∀ (s : String) (d : Date), parse_from_str s "%Y-%m-%d" = .ok d →
      date_difference_days s s = .ok 0) ∧
    (∀ (a b : String) (x y : Int), date_difference_days a b = .ok x →
      date_difference_days b a = .ok y → y = -x) ∧
    (∀ (a b : String) (x : Int) (da db : Date), date_difference_days a b = .ok x →
      parse_from_str a "%Y-%m-%d" = .ok da → parse_from_str b "%Y-%m-%d" = .ok db →
      (0 < x ↔ Date.Before db da)) := by
  refine ⟨?_, ?_, ?_⟩
  · intro s d h
    simp [date_difference_days, h]
  · intro a b x y hx hy
    obtain ⟨da, db, hpa, hpb, hx'⟩ := date_difference_days_inv a b x hx
    obtain ⟨db2, da2, hpb2, hpa2, hy'⟩ := date_difference_days_inv b a y hy
    rw [hpa] at hpa2
    rw [hpb] at hpb2
    injection hpa2 with hpa2
    injection hpb2 with hpb2
    subst hpa2
    subst hpb2
    omega
  · intro a b x da db hx hpa hpb
    obtain ⟨da2, db2, hpa2, hpb2, hx'⟩ := date_difference_days_inv a b x hx
    rw [hpa] at hpa2
    rw [hpb] at hpb2
    injection hpa2 with hpa2
    injection hpb2 with hpb2
    subst hpa2
    subst hpb2
    have hiff := toOrdinal_lt_iff db da (parse_from_str_valid b _ db hpb)
      (parse_from_str_valid a _ da hpa)
    rw [← hiff]
    omega

/-- Witness for C5: concrete checks of the zero, antisymmetry and
positivity parts on the documented example dates. -/
theorem date_difference_days_algebra_witness :
    date_difference_days "2023-01-10" "2023-01-10" = .ok 0 ∧
    ((-5 : Int) = -(5 : Int)) ∧
    (0 < (5 : Int) ↔ Date.Before ⟨2023, 1, 5⟩ ⟨2023, 1, 10⟩) :=
  ⟨date_difference_days_algebra.1 "2023-01-10" ⟨2023, 1, 10⟩ (by decide),
   date_difference_days_algebra.2.1 "2023-01-10" "2023-01-05" 5 (-5) (by decide) (by decide),
   date_difference_days_algebra.2.2 "2023-01-10" "2023-01-05" 5 ⟨2023, 1, 10⟩ ⟨2023, 1, 5⟩
     (by decide) (by decide) (by decide)⟩

/-- C3 (amended): `add_days s 0` returns the canonical `%Y-%m-%d` rendering
of the parsed date — so it returns `s` itself exactly when `s` is already
canonically formatted (chrono's parser also accepts non-canonical forms
such as unpadded fields, which `add_days` does not echo back) — and the
documented rollover examples hold. -/
theorem add_days_zero_canonicalizes :
    (∀ (s : String) (d : Date), parse_from_str s "%Y-%m-%d" = .ok d →
      add_days s 0 = .ok (canonical_ymd d)) ∧
    add_days "2023-12-25" 7 = .ok "2024-01-01" ∧
    add_days "2023-12-25" (-5) = .ok "2023-12-20" := by
  refine ⟨?_, by set_option maxRecDepth 1000000 in decide,
    by set_option maxRecDepth 1000000 in decide⟩
  intro s d h
  have hv := parse_from_str_valid s _ d h
  have hfo := fromOrdinal_toOrdinal d hv
  simp only [add_days, h, add_zero, hfo, formatChars_ymd, formatChars_ymd_list]

/-- Counterexample for C3: `"2023-1-5"` parses successfully in `%Y-%m-%d`
format (chrono accepts unpadded month and day fields), but `add_days` with
zero days returns the canonical rendering `"2023-01-05"`, not the input. -/
theorem add_days_zero_not_identity :
    parse_from_str "2023-1-5" "%Y-%m-%d" = .ok ⟨2023, 1, 5⟩ ∧
    add_days "2023-1-5" 0 = .ok "2023-01-05" ∧
    ("2023-01-05" : String) ≠ "2023-1-5" :=
  ⟨by decide, by set_option maxRecDepth 1000000 in decide, by decide⟩

/-- Witness for C3: on a canonically formatted input, adding zero days
returns the input itself. -/
theorem add_days_zero_canonicalizes_witness :
    add_days "2023-01-05" 0 = .ok (canonical_ymd ⟨2023, 1, 5⟩) :=
  add_days_zero_canonicalizes.1 "2023-01-05" ⟨2023, 1, 5⟩ (by decide)

/-- C8: `is_prime n` is true exactly when `n ≥ 2` and `n` has no divisor
other than `1` and itself — the trial division over the odd candidates up
to `√n` (after rejecting `n < 2` and even `n > 2`) decides primality. -/
theorem is_prime_iff_no_nontrivial_divisor : ∀ n : Nat,
    (is_prime n = true ↔ 2 ≤ n ∧ ∀ d, d ∣ n → d = 1 ∨ d = n) := by
  intro n
  rw [← Nat.prime_def]
  by_cases h2 : n < 2
  · have hfalse : is_prime n = false := by
      unfold is_prime
      rw [if_pos h2]
    rw [hfalse]
    simp only [Bool.false_eq_true, false_iff]
    intro hp
    have := hp.two_le
    omega
  · push_neg at h2
    by_cases heq : n = 2
    · subst heq
      simp [is_prime, Nat.prime_two]
    · by_cases hev : n % 2 = 0
      · have hfalse : is_prime n = false := by
          unfold is_prime
          rw [if_neg (by omega : ¬ n < 2), if_neg heq,
            if_pos (show (n % 2 == 0) = true by simp [hev])]
        rw [hfalse]
        simp only [Bool.false_eq_true, false_iff]
        intro hp
        rcases hp.eq_one_or_self_of_dvd 2 (by omega) with h | h <;> omega
      · have hstep : is_prime n =
            (List.range' 3 (if Nat.sqrt n < 3 then 0 else (Nat.sqrt n - 3) / 2 + 1) 2).all
              (fun i => n % i != 0) := by
          unfold is_prime
          rw [if_neg (by omega : ¬ n < 2), if_neg heq,
            if_neg (show ¬ (n % 2 == 0) = true by simp [hev])]
        rw [hstep]
        by_cases hb : Nat.sqrt n < 3
        · rw [if_pos hb, List.range'_zero]
          simp only [List.all_nil, true_iff]
          apply Nat.prime_def_le_sqrt.mpr
          refine ⟨h2, fun m hm hmsq hdvd => ?_⟩
          have hm2 : m = 2 := by omega
          subst hm2
          exact absurd hdvd (by omega)
        · rw [if_neg hb, List.all_eq_true]
          constructor
          · intro hall
            apply Nat.prime_def_le_sqrt.mpr
            refine ⟨h2, fun m hm hmsq hdvd => ?_⟩
            rcases Nat.even_or_odd m with hme | hmo
            · obtain ⟨t, ht⟩ := hme
              have h2m : (2 : Nat) ∣ m := ⟨t, by omega⟩
              have h2n : (2 : Nat) ∣ n := dvd_trans h2m hdvd
              omega
            · obtain ⟨t, ht⟩ := hmo
              have hmem : m ∈ List.range' 3 ((Nat.sqrt n - 3) / 2 + 1) 2 := by
                rw [List.mem_range']
                exact ⟨(m - 3) / 2, by omega, by omega⟩
              have hne := hall m hmem
              simp only [bne_iff_ne, ne_eq] at hne
              exact hne (Nat.dvd_iff_mod_eq_zero.mp hdvd)
          · intro hp i hi
            rw [List.mem_range'] at hi
            obtain ⟨j, hj, hij⟩ := hi
            have hin : i < n := by
              have := Nat.sqrt_lt_self (by omega : 1 < n)
              omega
            simp only [bne_iff_ne, ne_eq]
            intro hmod
            rcases hp.eq_one_or_self_of_dvd i (Nat.dvd_iff_mod_eq_zero.mpr hmod) with h | h <;>
              omega

end CliUtils
